import Mathlib

/-!
Verification development for the mesh-magic color core:
the color codec in src/app/components/ui/color-picker/color.utils.ts
and the picker state machine in
src/app/components/ui/color-picker/ColorPickerRoot.vue.

Numbers are modelled by exact rationals.  The OKLCH conversions
(Math.pow with exponent 2.4, Math.cbrt, trigonometry) and the browser
named-color resolver are kept as explicit parameters, since they are
not exactly representable; every statement that touches them is
quantified over those parameters.
-/

namespace MeshMagic

/-- JavaScript truncation toward zero (the rounding used by the `%` operator). -/
def jtrunc (q : ℚ) : ℤ :=
  if 0 ≤ q then ⌊q⌋ else ⌈q⌉

/-- JavaScript remainder `a % b`: `a - b * trunc (a / b)` (sign follows the dividend). -/
def jsMod (a b : ℚ) : ℚ :=
  a - b * (jtrunc (a / b) : ℚ)

/-- JavaScript `Math.round`: round half toward positive infinity. -/
def jround (q : ℚ) : ℚ :=
  ((⌊q + 1/2⌋ : ℤ) : ℚ)

/-- RGB color with alpha, from types.ts (`{r, g, b, a}`, all JS numbers). -/
structure RgbColor where
  r : ℚ
  g : ℚ
  b : ℚ
  a : ℚ
deriving DecidableEq, Repr

/-- HSV color with alpha, from types.ts. -/
structure HsvColor where
  h : ℚ
  s : ℚ
  v : ℚ
  a : ℚ
deriving DecidableEq, Repr

/-- OKLCH color with alpha, from types.ts. -/
structure OklchColor where
  l : ℚ
  c : ℚ
  h : ℚ
  a : ℚ
deriving DecidableEq, Repr

/-- color.utils.ts `rgbToHsv`: max/min/delta sector algorithm. -/
def rgbToHsv (rgb : RgbColor) : HsvColor :=
  let rNorm := rgb.r / 255
  let gNorm := rgb.g / 255
  let bNorm := rgb.b / 255
  let mx := max rNorm (max gNorm bNorm)
  let mn := min rNorm (min gNorm bNorm)
  let delta := mx - mn
  let h :=
    if delta ≠ 0 then
      let sector :=
        if mx = rNorm then jsMod ((gNorm - bNorm) / delta) 6
        else if mx = gNorm then (bNorm - rNorm) / delta + 2
        else (rNorm - gNorm) / delta + 4
      let h1 := sector * 60
      if h1 < 0 then h1 + 360 else h1
    else 0
  let s := if mx = 0 then 0 else delta / mx
  ⟨h, s, mx, rgb.a⟩

/-- color.utils.ts `hsvToRgb`: chroma/sector algorithm, hue first normalized
into [0,360) by the JS remainder plus a negative-wrap fixup. -/
def hsvToRgb (hsv : HsvColor) : RgbColor :=
  let h0 := jsMod hsv.h 360
  let h := if h0 < 0 then h0 + 360 else h0
  let c := hsv.v * hsv.s
  let x := c * (1 - |jsMod (h / 60) 2 - 1|)
  let m := hsv.v - c
  let p : ℚ × ℚ × ℚ :=
    if 0 ≤ h ∧ h < 60 then (c, x, 0)
    else if 60 ≤ h ∧ h < 120 then (x, c, 0)
    else if 120 ≤ h ∧ h < 180 then (0, c, x)
    else if 180 ≤ h ∧ h < 240 then (0, x, c)
    else if 240 ≤ h ∧ h < 300 then (x, 0, c)
    else if 300 ≤ h ∧ h < 360 then (c, 0, x)
    else (0, 0, 0)
  ⟨jround ((p.1 + m) * 255), jround ((p.2.1 + m) * 255), jround ((p.2.2 + m) * 255), hsv.a⟩


section HexFormatting

/-- Hex digit character for a value 0..15: digits then lowercase letters,
as produced by JS Number.prototype.toString(16). -/
def hexChar (n : ℕ) : Char :=
  if n < 10 then Char.ofNat (48 + n) else Char.ofNat (87 + n)

/-- Digit accumulator for natToHex; the first argument is fuel (enough is
supplied so it never runs out). -/
def natToHexAux : ℕ → ℕ → List Char → List Char
  | 0, _, acc => acc
  | fuel + 1, n, acc =>
    let acc2 := hexChar (n % 16) :: acc
    if n < 16 then acc2 else natToHexAux fuel (n / 16) acc2

/-- Base-16 rendering of a natural number, lowercase, no padding:
JS Number.prototype.toString(16) on nonnegative integers. -/
def natToHex (n : ℕ) : String :=
  String.mk (natToHexAux (n + 1) n [])

/-- Models JS Number.prototype.toString(16) on the values this code path
feeds it: nonnegative integers (8-bit channels and the rounded alpha byte).
A rational with denominator 1 renders its (nonnegative) numerator. -/
def jsToString16 (q : ℚ) : String :=
  natToHex q.num.toNat

/-- JS String.prototype.padStart(2, "0"). -/
def padStart2 (s : String) : String :=
  if 2 ≤ s.length then s else if s.length = 1 then "0" ++ s else "00"

/-- color.utils.ts `rgbToHex`: channels zero-padded to 2 hex digits; the
alpha byte `round(a*255)` is appended exactly when `a < 1`. -/
def rgbToHex (rgb : RgbColor) : String :=
  let redHex := padStart2 (jsToString16 rgb.r)
  let greenHex := padStart2 (jsToString16 rgb.g)
  let blueHex := padStart2 (jsToString16 rgb.b)
  let alphaHex := if rgb.a < 1 then padStart2 (jsToString16 (jround (rgb.a * 255))) else ""
  "#" ++ redHex ++ greenHex ++ blueHex ++ alphaHex

/-- Spec-side formulation of a zero-padded 2-hex-digit byte: the high and
the low nibble, written independently of the implementation's
toString/padStart route so the two can be compared. -/
def specHexByte (n : ℕ) : String :=
  String.mk [hexChar (n / 16), hexChar (n % 16)]

end HexFormatting

section HexParsing

/-- One character of the HEX_REGEX character class [A-Fa-f0-9]. -/
def isHexDigit (c : Char) : Bool :=
  (('0' ≤ c ∧ c ≤ '9') ∨ ('a' ≤ c ∧ c ≤ 'f') ∨ ('A' ≤ c ∧ c ≤ 'F') : Prop)

/-- color.utils.ts `isHexColorValid`: HEX_REGEX accepts '#' followed by
exactly 8, 6, 4 or 3 hex digits. -/
def isHexColorValid (hex : String) : Bool :=
  match hex.data with
  | '#' :: rest =>
    (rest.length = 8 ∨ rest.length = 6 ∨ rest.length = 4 ∨ rest.length = 3 : Prop)
      && rest.all isHexDigit
  | _ => false

/-- Value of a single hex digit character, as parseInt(base 16) assigns it
(only ever applied to valid hex digits here). -/
def hexVal (c : Char) : ℕ :=
  if '0' ≤ c ∧ c ≤ '9' then c.toNat - 48
  else if 'a' ≤ c ∧ c ≤ 'f' then c.toNat - 87
  else if 'A' ≤ c ∧ c ≤ 'F' then c.toNat - 55
  else 0

/-- The main path of color.utils.ts `hexToRgb`, reached once the string has
passed isHexColorValid: nibble-doubling for the 3/4-digit short forms,
2-digit groups for the 6/8-digit forms, alpha byte divided by 255. -/
def hexToRgbValid (hex : String) : Option RgbColor :=
  match hex.data with
  | ['#', r, g, b] =>
    some ⟨17 * hexVal r, 17 * hexVal g, 17 * hexVal b, 1⟩
  | ['#', r, g, b, a] =>
    some ⟨17 * hexVal r, 17 * hexVal g, 17 * hexVal b, (17 * hexVal a : ℚ) / 255⟩
  | ['#', r1, r2, g1, g2, b1, b2] =>
    some ⟨16 * hexVal r1 + hexVal r2, 16 * hexVal g1 + hexVal g2,
          16 * hexVal b1 + hexVal b2, 1⟩
  | ['#', r1, r2, g1, g2, b1, b2, a1, a2] =>
    some ⟨16 * hexVal r1 + hexVal r2, 16 * hexVal g1 + hexVal g2,
          16 * hexVal b1 + hexVal b2, (16 * hexVal a1 + hexVal a2 : ℚ) / 255⟩
  | _ => none

/-- color.utils.ts `hexToRgb` with the one recursive call unrolled: an
invalid string is sent to the external named-color resolver and its
answer, when it is a valid hex string, is parsed by the main path
(the source recurses, but the recursion immediately takes the main path
because validity has just been checked). -/
def hexToRgb (resolve : String → Option String) (hex : String) : Option RgbColor :=
  if isHexColorValid hex then hexToRgbValid hex
  else
    match resolve hex with
    | some colorHex => if isHexColorValid colorHex then hexToRgbValid colorHex else none
    | none => none

end HexParsing

section FunctionalStrings

/-- Whitespace for the regexes' \s (the forms produced by this app only ever
contain spaces; tabs and line breaks are included for good measure). -/
def isJsWs (c : Char) : Bool :=
  c = ' ' ∨ c = '\t' ∨ c = '\n' ∨ c = '\r'

/-- parseInt(s, 10) on an all-digit capture. -/
def digitsToNat (l : List Char) : ℕ :=
  l.foldl (fun acc c => 10 * acc + (c.toNat - 48)) 0

/-- JS parseFloat on a capture of the class [\d.]+ : integer digits, then an
optional dot and fractional digits; anything after a second dot is ignored.
A capture containing no digit at all makes JS parseFloat return NaN; such
degenerate captures are outside this model and yield none. -/
def jsParseFloat (l : List Char) : Option ℚ :=
  let intPart := l.takeWhile Char.isDigit
  let rest := l.dropWhile Char.isDigit
  match rest with
  | '.' :: rest2 =>
    let fracPart := rest2.takeWhile Char.isDigit
    if intPart.isEmpty ∧ fracPart.isEmpty then none
    else
      some ((digitsToNat intPart : ℚ) +
        fracPart.foldr (fun c acc => (((c.toNat - 48 : ℕ) : ℚ) + acc) / 10) (0 : ℚ))
  | _ => if intPart.isEmpty then none else some (digitsToNat intPart)

/-- Consume an expected literal prefix. -/
def chomp : List Char → List Char → Option (List Char)
  | [], l => some l
  | _, [] => none
  | p :: ps, c :: cs => if c = p then chomp ps cs else none

/-- Consume one expected character. -/
def expectChar (c : Char) : List Char → Option (List Char)
  | x :: xs => if x = c then some xs else none
  | [] => none

/-- A (\d+) capture surrounded by \s*, as in RGB_REGEX components. -/
def parseIntComp (l : List Char) : Option (ℚ × List Char) :=
  let l1 := l.dropWhile isJsWs
  let ds := l1.takeWhile Char.isDigit
  if ds.isEmpty then none
  else some ((digitsToNat ds : ℚ), (l1.dropWhile Char.isDigit).dropWhile isJsWs)

/-- A ([\d.]+) capture preceded by \s* (trailing whitespace not consumed). -/
def parseFloatRaw (l : List Char) : Option (ℚ × List Char) :=
  let l1 := l.dropWhile isJsWs
  let cap := l1.takeWhile (fun c => c.isDigit || c = '.')
  if cap.isEmpty then none
  else
    match jsParseFloat cap with
    | some q => some (q, l1.dropWhile (fun c => c.isDigit || c = '.'))
    | none => none

/-- A ([\d.]+) capture surrounded by \s*. -/
def parseFloatComp (l : List Char) : Option (ℚ × List Char) :=
  match parseFloatRaw l with
  | some (q, rest) => some (q, rest.dropWhile isJsWs)
  | none => none

/-- RGB_REGEX: rgba?\( \s*(\d+)\s*,\s*(\d+)\s*,\s*(\d+)\s* optionally
followed by ,\s*([\d.]+)\s* and the closing paren, anchored both ends. -/
def matchRgbStr (s : String) : Option (ℚ × ℚ × ℚ × Option ℚ) := do
  let l ← chomp ['r', 'g', 'b'] s.data
  let l := match l with
    | 'a' :: t => t
    | t => t
  let l ← expectChar '(' l
  let (rv, l) ← parseIntComp l
  let l ← expectChar ',' l
  let (gv, l) ← parseIntComp l
  let l ← expectChar ',' l
  let (bv, l) ← parseIntComp l
  match l with
  | [')'] => some (rv, gv, bv, none)
  | ',' :: rest => do
    let (av, rest) ← parseFloatComp rest
    let rest ← expectChar ')' rest
    if rest.isEmpty then some (rv, gv, bv, some av) else none
  | _ => none

/-- HSV_REGEX: hsva?\( h then s and v each with an optional trailing %,
optional alpha, anchored both ends. -/
def matchHsvStr (s : String) : Option (ℚ × ℚ × ℚ × Option ℚ) := do
  let l ← chomp ['h', 's', 'v'] s.data
  let l := match l with
    | 'a' :: t => t
    | t => t
  let l ← expectChar '(' l
  let (hv, l) ← parseFloatComp l
  let l ← expectChar ',' l
  let (sv, l) ← parseFloatRaw l
  let l := match l with
    | '%' :: t => t
    | t => t
  let l := l.dropWhile isJsWs
  let l ← expectChar ',' l
  let (vv, l) ← parseFloatRaw l
  let l := match l with
    | '%' :: t => t
    | t => t
  let l := l.dropWhile isJsWs
  match l with
  | [')'] => some (hv, sv, vv, none)
  | ',' :: rest => do
    let (av, rest) ← parseFloatComp rest
    let rest ← expectChar ')' rest
    if rest.isEmpty then some (hv, sv, vv, some av) else none
  | _ => none

/-- OKLCH_REGEX: oklch\( \s*([\d.]+)\s+([\d.]+)\s+([\d.]+)\s* with an
optional /\s*([\d.]+)\s* alpha, anchored both ends.  The \s+ separators
require at least one whitespace character. -/
def matchOklchStr (s : String) : Option (ℚ × ℚ × ℚ × Option ℚ) := do
  let l ← chomp ['o', 'k', 'l', 'c', 'h'] s.data
  let l ← expectChar '(' l
  let (lv, l) ← parseFloatRaw l
  let l ← match l with
    | c :: t => if isJsWs c then some (t.dropWhile isJsWs) else none
    | [] => none
  let (cv, l) ← parseFloatRaw l
  let l ← match l with
    | c :: t => if isJsWs c then some (t.dropWhile isJsWs) else none
    | [] => none
  let (hv, l) ← parseFloatRaw l
  let l := l.dropWhile isJsWs
  match l with
  | [')'] => some (lv, cv, hv, none)
  | '/' :: rest => do
    let (av, rest) ← parseFloatComp rest
    let rest ← expectChar ')' rest
    if rest.isEmpty then some (lv, cv, hv, some av) else none
  | _ => none

/-- JS String.prototype.trim (over the modelled whitespace set). -/
def jsTrim (s : String) : String :=
  String.mk (((s.data.dropWhile isJsWs).reverse.dropWhile isJsWs).reverse)

/-- JS String.prototype.toLowerCase on the ASCII range used here. -/
def jsToLower (s : String) : String :=
  String.mk (s.data.map Char.toLower)

end FunctionalStrings

section Parse

/-- ColorValue from types.ts: the canonical aggregate of all four
representations. -/
structure ColorValue where
  hex : String
  rgb : RgbColor
  hsv : HsvColor
  oklch : OklchColor
deriving DecidableEq, Repr

/-- The collaborators that are not exactly representable in the embedding:
the browser named-color resolver (colorNameToHex reaches into
document/canvas), and the two OKLCH conversions (Math.pow 2.4, Math.cbrt,
sqrt and trigonometry on IEEE doubles).  Every theorem about code that can
touch them is stated for an arbitrary choice of these functions. -/
structure Externals where
  resolveName : String → Option String
  oklchToRgb : OklchColor → RgbColor
  rgbToOklch : RgbColor → OklchColor

/-- The possible inputs of parseToRgb/parseColor, discriminated the way the
source sniffs object shapes: a string, an object carrying a `rgb` field
(a full ColorValue), an `r`,`g`,`b` object, an `h`,`s`,`v` object, an
`l`,`c`,`h` object, or an object with none of the recognized field sets
(such as the literal with a single `x` field used in the tests). -/
inductive ColorInput where
  | str (s : String)
  | full (cv : ColorValue)
  | rgb (c : RgbColor)
  | hsv (c : HsvColor)
  | oklch (c : OklchColor)
  | unrecognized
deriving DecidableEq, Repr

/-- The string branch of color.utils.ts `parseToRgb`: trim and lowercase,
then try hex (which itself may consult the resolver), the rgb/hsv/oklch
functional forms, and finally the named-color resolver. -/
def parseToRgbStr (E : Externals) (s : String) : Option RgbColor :=
  let trimmed := jsToLower (jsTrim s)
  match hexToRgb E.resolveName trimmed with
  | some c => some c
  | none =>
    match matchRgbStr trimmed with
    | some (rv, gv, bv, av) => some ⟨rv, gv, bv, av.getD 1⟩
    | none =>
      match matchHsvStr trimmed with
      | some (hv, sv, vv, av) => some (hsvToRgb ⟨hv, sv / 100, vv / 100, av.getD 1⟩)
      | none =>
        match matchOklchStr trimmed with
        | some (lv, cv, hv, av) => some (E.oklchToRgb ⟨lv, cv, hv, av.getD 1⟩)
        | none =>
          match E.resolveName trimmed with
          | some hx => hexToRgb E.resolveName hx
          | none => none

/-- color.utils.ts `parseToRgb`.  The leading falsy-input guard maps the
empty string to none; objects are dispatched by field presence in source
order (`rgb` first, then `r,g,b`, then `h,s,v`, then `l,c,h`), and an
object with none of those field sets yields none. -/
def parseToRgb (E : Externals) : ColorInput → Option RgbColor
  | .str s => if s = "" then none else parseToRgbStr E s
  | .full cv => some cv.rgb
  | .rgb c => some c
  | .hsv c => some (hsvToRgb c)
  | .oklch c => some (E.oklchToRgb c)
  | .unrecognized => none

/-- The ColorValue that parseColor builds from a pivot RGB value: hex,
a copy of the rgb, and the hsv and oklch recomputed from it. -/
def mkColorValue (E : Externals) (rgb : RgbColor) : ColorValue :=
  ⟨rgbToHex rgb, rgb, rgbToHsv rgb, E.rgbToOklch rgb⟩

/-- color.utils.ts `parseColor`: an object carrying both a `hex` and a
`rgb` field is returned as is; otherwise the input goes through parseToRgb
with opaque black substituted on failure, and all four representations are
rebuilt from that pivot.  The memoizing cache is not modelled: for a fixed
key it only ever stores the value this pure computation produces, so it
never changes the result on the inputs considered here. -/
def parseColor (E : Externals) : ColorInput → ColorValue
  | .full cv => cv
  | c => mkColorValue E ((parseToRgb E c).getD ⟨0, 0, 0, 1⟩)

end Parse

section Picker

/-- The picker state triple owned by ColorPickerRoot.vue: the
high-precision hsv reference, the published color, and the hue preview. -/
structure PickerState where
  hsv : HsvColor
  color : ColorValue
  previewColor : ColorValue
deriving DecidableEq, Repr

/-- A Partial of HsvColor as passed to setHsv: absent fields are none. -/
structure HsvUpdate where
  h : Option ℚ
  s : Option ℚ
  v : Option ℚ
  a : Option ℚ
deriving DecidableEq, Repr

/-- The spread `\x7b ...hsvRef.value, ...hsvUpdate \x7d`. -/
def mergeHsv (cur : HsvColor) (u : HsvUpdate) : HsvColor :=
  ⟨u.h.getD cur.h, u.s.getD cur.s, u.v.getD cur.v, u.a.getD cur.a⟩

/-- ColorPickerRoot.vue `updateHsv` (provided as setHsv): merge the partial
update, round and clamp the hue into [0,360] when it was supplied, derive
the new color through parseColor, and recompute the preview color from the
raw (unrounded) hue argument exactly when a hue was supplied.  The
re-entrancy guard suppresses the watcher for this write, so the watcher
contributes nothing here. -/
def updateHsv (E : Externals) (u : HsvUpdate) (st : PickerState) : PickerState :=
  let merged := mergeHsv st.hsv u
  let newHsv :=
    match u.h with
    | some hArg => { merged with h := max 0 (min 360 (jround hArg)) }
    | none => merged
  { hsv := newHsv
    color := parseColor E (.hsv newHsv)
    previewColor :=
      match u.h with
      | some hArg => parseColor E (.hsv ⟨hArg, 1, 1, 1⟩)
      | none => st.previewColor }

/-- An external replacement of the v-model color (a write that did not come
from updateHsv), followed by the watch(color) callback: a non-degenerate
incoming color (v > 0 and s > 0) is adopted verbatim; otherwise the
previously tracked h and s are kept and only v and a are taken. -/
def externalSetColor (st : PickerState) (newVal : ColorValue) : PickerState :=
  let incomingHsv := newVal.hsv
  { st with
    color := newVal
    hsv :=
      if 0 < incomingHsv.v ∧ 0 < incomingHsv.s then incomingHsv
      else { st.hsv with a := incomingHsv.a, v := incomingHsv.v } }

/-- ColorPickerRoot.vue `setColor`: writes the model color and hsvRef; the
model write is unguarded, so the watcher then fires on a state whose
hsvRef already equals newColor.hsv (both watcher branches leave it there). -/
def setColor (st : PickerState) (newColor : ColorValue) : PickerState :=
  externalSetColor { st with hsv := newColor.hsv } newColor

/-- ColorPickerRoot.vue `setPreviewColor`: direct override. -/
def setPreviewColor (st : PickerState) (newColor : ColorValue) : PickerState :=
  { st with previewColor := newColor }

/-- Initialization in ColorPickerRoot.vue: hsvRef from the model color, and
previewColorRef = parseColor(\x7b ...color.value.hsv, s: 1, v: 1 \x7d), a spread
that keeps the incoming hue and alpha. -/
def initPicker (E : Externals) (c : ColorValue) : PickerState :=
  ⟨c.hsv, c, parseColor E (.hsv { c.hsv with s := 1, v := 1 })⟩

end Picker

section Fixtures

/-- The previewColor consistency relation of the spec: previewColor is the
parse of the fully-saturated, fully-bright version of the tracked hue. -/
def PreviewInvariant (E : Externals) (st : PickerState) : Prop :=
  st.previewColor = parseColor E (.hsv ⟨st.hsv.h, 1, 1, 1⟩)

/-- A setHsv update whose hue argument, when present, is an integer already
inside [0,360] (so the round-and-clamp step leaves it unchanged). -/
def GoodHue (u : HsvUpdate) : Prop :=
  match u.h with
  | none => True
  | some q => q.den = 1 ∧ 0 ≤ q ∧ q ≤ 360

/-- A concrete instantiation of the external collaborators, used to
evaluate statements at specific inputs: no named color resolves, and the
abstract OKLCH conversions return a fixed value. -/
def extStub : Externals :=
  ⟨fun _ => none, fun _ => ⟨0, 0, 0, 1⟩, fun _ => ⟨0, 0, 0, 1⟩⟩

/-- An arbitrary concrete ColorValue used as state filler. -/
def cv0 : ColorValue :=
  ⟨"#000000", ⟨0, 0, 0, 1⟩, ⟨0, 0, 0, 1⟩, ⟨0, 0, 0, 1⟩⟩

/-- A concrete picker state with hsv = (h 200, s 0.5, v 0.5, a 1). -/
def st0 : PickerState :=
  ⟨⟨200, 1/2, 1/2, 1⟩, cv0, cv0⟩

/-- The ColorValue the parser produces for opaque red. -/
def cvRed : ColorValue :=
  parseColor extStub (.rgb ⟨255, 0, 0, 1⟩)

/-- The ColorValue the parser produces for opaque green. -/
def cvGreen : ColorValue :=
  parseColor extStub (.rgb ⟨0, 255, 0, 1⟩)

end Fixtures

section JsModLemmas

theorem jsMod_self_of {a b : ℚ} (hb : 0 < b) (h0 : 0 ≤ a) (h1 : a < b) :
    jsMod a b = a := by
  have hq0 : 0 ≤ a / b := div_nonneg h0 hb.le
  have hq1 : a / b < 1 := (div_lt_one hb).mpr h1
  have : ⌊a / b⌋ = 0 := Int.floor_eq_zero_iff.mpr ⟨hq0, hq1⟩
  simp [jsMod, jtrunc, hq0, this]

theorem jsMod_neg_small {a b : ℚ} (hb : 0 < b) (h0 : -b < a) (h1 : a < 0) :
    jsMod a b = a := by
  have hq1 : a / b < 0 := div_neg_of_neg_of_pos h1 hb
  have hq0 : -1 < a / b := (lt_div_iff₀ hb).mpr (by linarith)
  have hc : ⌈a / b⌉ = 0 := Int.ceil_eq_zero_iff.mpr ⟨hq0, hq1.le⟩
  have hnot : ¬ (0 ≤ a / b) := not_le.mpr hq1
  simp [jsMod, jtrunc, hnot, hc]

theorem jsMod_shift {a b : ℚ} (hb : 0 < b) (h0 : b ≤ a) (h1 : a < 2 * b) :
    jsMod a b = a - b := by
  have hq0 : 1 ≤ a / b := (one_le_div hb).mpr h0
  have hq1 : a / b < 2 := (div_lt_iff₀ hb).mpr (by linarith)
  have hf : ⌊a / b⌋ = 1 :=
    Int.floor_eq_iff.mpr ⟨by exact_mod_cast hq0, by push_cast; linarith⟩
  have hnn : 0 ≤ a / b := le_trans (by norm_num) hq0
  rw [jsMod, jtrunc, if_pos hnn, hf]
  push_cast
  ring

theorem jsMod_shift2 {a b : ℚ} (hb : 0 < b) (h0 : 2 * b ≤ a) (h1 : a < 3 * b) :
    jsMod a b = a - 2 * b := by
  have hq0 : 2 ≤ a / b := (le_div_iff₀ hb).mpr (by linarith)
  have hq1 : a / b < 3 := (div_lt_iff₀ hb).mpr (by linarith)
  have hf : ⌊a / b⌋ = 2 :=
    Int.floor_eq_iff.mpr ⟨by exact_mod_cast hq0, by push_cast; linarith⟩
  have hnn : 0 ≤ a / b := le_trans (by norm_num) hq0
  rw [jsMod, jtrunc, if_pos hnn, hf]
  push_cast
  ring

theorem jround_intCast (n : ℤ) : jround (n : ℚ) = n := by
  have h12 : ⌊(1 : ℚ) / 2⌋ = 0 := by
    apply Int.floor_eq_zero_iff.mpr
    constructor <;> norm_num
  unfold jround
  rw [add_comm, Int.floor_add_int, h12, zero_add]

theorem jround_natCast (n : ℕ) : jround (n : ℚ) = n := by
  simpa using jround_intCast (n : ℤ)

end JsModLemmas

section SectorLemmas

theorem hsvToRgb_sector1 (h s v a : ℚ) (hl : 0 ≤ h) (hu : h < 60) :
    hsvToRgb ⟨h, s, v, a⟩ =
      ⟨jround (v * 255),
       jround ((v * s * (h / 60) + (v - v * s)) * 255),
       jround ((v - v * s) * 255), a⟩ := by
  have hm360 : jsMod h 360 = h := jsMod_self_of (by norm_num) hl (by linarith)
  have hwrap : (if h < 0 then h + 360 else h) = h := if_neg (not_lt.mpr hl)
  have hmod : jsMod (h / 60) 2 = h / 60 :=
    jsMod_self_of (by norm_num) (div_nonneg hl (by norm_num))
      (by rw [div_lt_iff₀] <;> linarith)
  have habs : |h / 60 - 1| = 1 - h / 60 := by
    rw [abs_of_nonpos (by rw [sub_nonpos, div_le_one] <;> linarith)]
    ring
  simp only [hsvToRgb, hm360, hwrap, hmod, habs]
  rw [if_pos ⟨hl, hu⟩]
  simp only [RgbColor.mk.injEq]
  refine ⟨?_, ?_, ?_, trivial⟩ <;> (congr 1; ring)

theorem hsvToRgb_sector2 (h s v a : ℚ) (hl : 60 ≤ h) (hu : h < 120) :
    hsvToRgb ⟨h, s, v, a⟩ =
      ⟨jround ((v * s * (2 - h / 60) + (v - v * s)) * 255),
       jround (v * 255),
       jround ((v - v * s) * 255), a⟩ := by
  have hl0 : (0:ℚ) ≤ h := by linarith
  have hm360 : jsMod h 360 = h := jsMod_self_of (by norm_num) hl0 (by linarith)
  have hwrap : (if h < 0 then h + 360 else h) = h := if_neg (not_lt.mpr hl0)
  have hmod : jsMod (h / 60) 2 = h / 60 :=
    jsMod_self_of (by norm_num) (div_nonneg hl0 (by norm_num))
      (by rw [div_lt_iff₀] <;> linarith)
  have habs : |h / 60 - 1| = h / 60 - 1 := by
    rw [abs_of_nonneg (by rw [sub_nonneg, le_div_iff₀] <;> linarith)]
  simp only [hsvToRgb, hm360, hwrap, hmod, habs]
  rw [if_neg (by push_neg; intro h3; linarith), if_pos ⟨hl, hu⟩]
  simp only [RgbColor.mk.injEq]
  refine ⟨?_, ?_, ?_, trivial⟩ <;> (congr 1; ring)

theorem hsvToRgb_sector3 (h s v a : ℚ) (hl : 120 ≤ h) (hu : h < 180) :
    hsvToRgb ⟨h, s, v, a⟩ =
      ⟨jround ((v - v * s) * 255),
       jround (v * 255),
       jround ((v * s * (h / 60 - 2) + (v - v * s)) * 255), a⟩ := by
  have hl0 : (0:ℚ) ≤ h := by linarith
  have hm360 : jsMod h 360 = h := jsMod_self_of (by norm_num) hl0 (by linarith)
  have hwrap : (if h < 0 then h + 360 else h) = h := if_neg (not_lt.mpr hl0)
  have hmod : jsMod (h / 60) 2 = h / 60 - 2 :=
    jsMod_shift (by norm_num) (by rw [le_div_iff₀] <;> linarith)
      (by rw [div_lt_iff₀] <;> linarith)
  have habs : |h / 60 - 2 - 1| = 3 - h / 60 := by
    rw [abs_of_nonpos (by rw [show h / 60 - 2 - 1 = h / 60 - 3 by ring, sub_nonpos,
      div_le_iff₀] <;> linarith)]
    ring
  simp only [hsvToRgb, hm360, hwrap, hmod, habs]
  rw [if_neg (by push_neg; intro h3; linarith),
    if_neg (by push_neg; intro h3; linarith), if_pos ⟨hl, hu⟩]
  simp only [RgbColor.mk.injEq]
  refine ⟨?_, ?_, ?_, trivial⟩ <;> (congr 1; ring)

theorem hsvToRgb_sector4 (h s v a : ℚ) (hl : 180 ≤ h) (hu : h < 240) :
    hsvToRgb ⟨h, s, v, a⟩ =
      ⟨jround ((v - v * s) * 255),
       jround ((v * s * (4 - h / 60) + (v - v * s)) * 255),
       jround (v * 255), a⟩ := by
  have hl0 : (0:ℚ) ≤ h := by linarith
  have hm360 : jsMod h 360 = h := jsMod_self_of (by norm_num) hl0 (by linarith)
  have hwrap : (if h < 0 then h + 360 else h) = h := if_neg (not_lt.mpr hl0)
  have hmod : jsMod (h / 60) 2 = h / 60 - 2 :=
    jsMod_shift (by norm_num) (by rw [le_div_iff₀] <;> linarith)
      (by rw [div_lt_iff₀] <;> linarith)
  have habs : |h / 60 - 2 - 1| = h / 60 - 3 := by
    rw [show h / 60 - 2 - 1 = h / 60 - 3 by ring,
      abs_of_nonneg (by rw [sub_nonneg, le_div_iff₀] <;> linarith)]
  simp only [hsvToRgb, hm360, hwrap, hmod, habs]
  rw [if_neg (by push_neg; intro h3; linarith),
    if_neg (by push_neg; intro h3; linarith),
    if_neg (by push_neg; intro h3; linarith), if_pos ⟨hl, hu⟩]
  simp only [RgbColor.mk.injEq]
  refine ⟨?_, ?_, ?_, trivial⟩ <;> (congr 1; ring)

theorem hsvToRgb_sector5 (h s v a : ℚ) (hl : 240 ≤ h) (hu : h < 300) :
    hsvToRgb ⟨h, s, v, a⟩ =
      ⟨jround ((v * s * (h / 60 - 4) + (v - v * s)) * 255),
       jround ((v - v * s) * 255),
       jround (v * 255), a⟩ := by
  have hl0 : (0:ℚ) ≤ h := by linarith
  have hm360 : jsMod h 360 = h := jsMod_self_of (by norm_num) hl0 (by linarith)
  have hwrap : (if h < 0 then h + 360 else h) = h := if_neg (not_lt.mpr hl0)
  have hmod : jsMod (h / 60) 2 = h / 60 - 2 * 2 :=
    jsMod_shift2 (by norm_num) (by rw [le_div_iff₀] <;> linarith)
      (by rw [div_lt_iff₀] <;> linarith)
  have habs : |h / 60 - 2 * 2 - 1| = 5 - h / 60 := by
    rw [abs_of_nonpos (by rw [show h / 60 - 2 * 2 - 1 = h / 60 - 5 by ring, sub_nonpos,
      div_le_iff₀] <;> linarith)]
    ring
  simp only [hsvToRgb, hm360, hwrap, hmod, habs]
  rw [if_neg (by push_neg; intro h3; linarith),
    if_neg (by push_neg; intro h3; linarith),
    if_neg (by push_neg; intro h3; linarith),
    if_neg (by push_neg; intro h3; linarith), if_pos ⟨hl, hu⟩]
  simp only [RgbColor.mk.injEq]
  refine ⟨?_, ?_, ?_, trivial⟩ <;> (congr 1; ring)

theorem hsvToRgb_sector6 (h s v a : ℚ) (hl : 300 ≤ h) (hu : h < 360) :
    hsvToRgb ⟨h, s, v, a⟩ =
      ⟨jround (v * 255),
       jround ((v - v * s) * 255),
       jround ((v * s * (6 - h / 60) + (v - v * s)) * 255), a⟩ := by
  have hl0 : (0:ℚ) ≤ h := by linarith
  have hm360 : jsMod h 360 = h := jsMod_self_of (by norm_num) hl0 (by linarith)
  have hwrap : (if h < 0 then h + 360 else h) = h := if_neg (not_lt.mpr hl0)
  have hmod : jsMod (h / 60) 2 = h / 60 - 2 * 2 :=
    jsMod_shift2 (by norm_num) (by rw [le_div_iff₀] <;> linarith)
      (by rw [div_lt_iff₀] <;> linarith)
  have habs : |h / 60 - 2 * 2 - 1| = h / 60 - 5 := by
    rw [show h / 60 - 2 * 2 - 1 = h / 60 - 5 by ring,
      abs_of_nonneg (by rw [sub_nonneg, le_div_iff₀] <;> linarith)]
  simp only [hsvToRgb, hm360, hwrap, hmod, habs]
  rw [if_neg (by push_neg; intro h3; linarith),
    if_neg (by push_neg; intro h3; linarith),
    if_neg (by push_neg; intro h3; linarith),
    if_neg (by push_neg; intro h3; linarith),
    if_neg (by push_neg; intro h3; linarith), if_pos ⟨hl, hu⟩]
  simp only [RgbColor.mk.injEq]
  refine ⟨?_, ?_, ?_, trivial⟩ <;> (congr 1; ring)

end SectorLemmas

section RoundTrip

theorem rt_gray (r a : ℚ) :
    hsvToRgb (rgbToHsv ⟨r, r, r, a⟩) = ⟨jround r, jround r, jround r, a⟩ := by
  have heval : rgbToHsv ⟨r, r, r, a⟩ = ⟨0, 0, r / 255, a⟩ := by
    simp [rgbToHsv]
  rw [heval, hsvToRgb_sector1 0 0 (r / 255) a le_rfl (by norm_num)]
  simp only [RgbColor.mk.injEq]
  refine ⟨?_, ?_, ?_, trivial⟩ <;> (congr 1; ring)

theorem rt_rmax_s1 (r g b a : ℚ) (hb0 : 0 ≤ b) (hbg : b ≤ g) (hgr : g < r) :
    hsvToRgb (rgbToHsv ⟨r, g, b, a⟩) = ⟨jround r, jround g, jround b, a⟩ := by
  have hbr : b < r := lt_of_le_of_lt hbg hgr
  have hr0 : 0 < r := lt_of_le_of_lt hb0 hbr
  have hdpos : 0 < r / 255 - b / 255 := by linarith
  have hmaxi : max (g / 255) (b / 255) = g / 255 := max_eq_left (by linarith)
  have hmaxo : max (r / 255) (g / 255) = r / 255 := max_eq_left (by linarith)
  have hmini : min (g / 255) (b / 255) = b / 255 := min_eq_right (by linarith)
  have hmino : min (r / 255) (b / 255) = b / 255 := min_eq_right (by linarith)
  have ht0 : 0 ≤ (g / 255 - b / 255) / (r / 255 - b / 255) :=
    div_nonneg (by linarith) hdpos.le
  have ht1 : (g / 255 - b / 255) / (r / 255 - b / 255) < 1 :=
    (div_lt_one hdpos).mpr (by linarith)
  have hmod : jsMod ((g / 255 - b / 255) / (r / 255 - b / 255)) 6 =
      (g / 255 - b / 255) / (r / 255 - b / 255) :=
    jsMod_self_of (by norm_num) ht0 (by linarith)
  have heval : rgbToHsv ⟨r, g, b, a⟩ =
      ⟨(g / 255 - b / 255) / (r / 255 - b / 255) * 60,
       (r / 255 - b / 255) / (r / 255), r / 255, a⟩ := by
    simp only [rgbToHsv, hmaxi, hmaxo, hmini, hmino]
    rw [if_pos (ne_of_gt hdpos), if_pos trivial, hmod,
      if_neg (not_lt.mpr (mul_nonneg ht0 (by norm_num))),
      if_neg (ne_of_gt (show (0:ℚ) < r / 255 by linarith))]
  have hbound1 : 0 ≤ (g / 255 - b / 255) / (r / 255 - b / 255) * 60 :=
    mul_nonneg ht0 (by norm_num)
  have hbound2 : (g / 255 - b / 255) / (r / 255 - b / 255) * 60 < 60 := by linarith
  rw [heval, hsvToRgb_sector1 _ _ _ _ hbound1 hbound2]
  have hrne : r ≠ 0 := ne_of_gt hr0
  have hrbne : r - b ≠ 0 := sub_ne_zero.mpr (ne_of_gt hbr)
  simp only [RgbColor.mk.injEq]
  refine ⟨?_, ?_, ?_, trivial⟩ <;> (congr 1; field_simp; try ring)

theorem rt_rmax_s2 (r b a : ℚ) (hb0 : 0 ≤ b) (hbr : b < r) :
    hsvToRgb (rgbToHsv ⟨r, r, b, a⟩) = ⟨jround r, jround r, jround b, a⟩ := by
  have hr0 : 0 < r := lt_of_le_of_lt hb0 hbr
  have hdpos : 0 < r / 255 - b / 255 := by linarith
  have hmaxi : max (r / 255) (b / 255) = r / 255 := max_eq_left (by linarith)
  have hmini : min (r / 255) (b / 255) = b / 255 := min_eq_right (by linarith)
  have hdivself : (r / 255 - b / 255) / (r / 255 - b / 255) = 1 := div_self (ne_of_gt hdpos)
  have hmod1 : jsMod 1 6 = 1 := jsMod_self_of (by norm_num) (by norm_num) (by norm_num)
  have heval : rgbToHsv ⟨r, r, b, a⟩ =
      ⟨60, (r / 255 - b / 255) / (r / 255), r / 255, a⟩ := by
    simp only [rgbToHsv, hmaxi, max_self, hmini]
    rw [if_pos (ne_of_gt hdpos), if_pos trivial, hdivself, hmod1,
      if_neg (by norm_num : ¬((1:ℚ) * 60 < 0)),
      if_neg (ne_of_gt (show (0:ℚ) < r / 255 by linarith))]
    norm_num
  rw [heval, hsvToRgb_sector2 60 _ _ _ le_rfl (by norm_num)]
  have hrne : r ≠ 0 := ne_of_gt hr0
  simp only [RgbColor.mk.injEq]
  refine ⟨?_, ?_, ?_, trivial⟩ <;> (congr 1; field_simp; try ring)

theorem rt_rmax_s6 (r g b a : ℚ) (hg0 : 0 ≤ g) (hgb : g < b) (hbr : b ≤ r) :
    hsvToRgb (rgbToHsv ⟨r, g, b, a⟩) = ⟨jround r, jround g, jround b, a⟩ := by
  have hgr : g < r := lt_of_lt_of_le hgb hbr
  have hr0 : 0 < r := lt_of_le_of_lt hg0 hgr
  have hdpos : 0 < r / 255 - g / 255 := by linarith
  have hmaxi : max (g / 255) (b / 255) = b / 255 := max_eq_right (by linarith)
  have hmaxo : max (r / 255) (b / 255) = r / 255 := max_eq_left (by linarith)
  have hmini : min (g / 255) (b / 255) = g / 255 := min_eq_left (by linarith)
  have hmino : min (r / 255) (g / 255) = g / 255 := min_eq_right (by linarith)
  have htneg : (g / 255 - b / 255) / (r / 255 - g / 255) < 0 :=
    div_neg_of_neg_of_pos (by linarith) hdpos
  have htge : -1 ≤ (g / 255 - b / 255) / (r / 255 - g / 255) :=
    (le_div_iff₀ hdpos).mpr (by linarith)
  have hmod : jsMod ((g / 255 - b / 255) / (r / 255 - g / 255)) 6 =
      (g / 255 - b / 255) / (r / 255 - g / 255) :=
    jsMod_neg_small (by norm_num) (by linarith) htneg
  have heval : rgbToHsv ⟨r, g, b, a⟩ =
      ⟨(g / 255 - b / 255) / (r / 255 - g / 255) * 60 + 360,
       (r / 255 - g / 255) / (r / 255), r / 255, a⟩ := by
    simp only [rgbToHsv, hmaxi, hmaxo, hmini, hmino]
    rw [if_pos (ne_of_gt hdpos), if_pos trivial, hmod,
      if_pos (mul_neg_of_neg_of_pos htneg (by norm_num)),
      if_neg (ne_of_gt (show (0:ℚ) < r / 255 by linarith))]
  have hbound1 : 300 ≤ (g / 255 - b / 255) / (r / 255 - g / 255) * 60 + 360 := by linarith
  have hbound2 : (g / 255 - b / 255) / (r / 255 - g / 255) * 60 + 360 < 360 := by linarith
  rw [heval, hsvToRgb_sector6 _ _ _ _ hbound1 hbound2]
  have hrne : r ≠ 0 := ne_of_gt hr0
  have hrgne : r - g ≠ 0 := sub_ne_zero.mpr (ne_of_gt hgr)
  simp only [RgbColor.mk.injEq]
  refine ⟨?_, ?_, ?_, trivial⟩ <;> (congr 1; field_simp; try ring)

theorem rt_gmax_s2 (r g b a : ℚ) (hb0 : 0 ≤ b) (hbr : b < r) (hrg : r < g) :
    hsvToRgb (rgbToHsv ⟨r, g, b, a⟩) = ⟨jround r, jround g, jround b, a⟩ := by
  have hg0 : 0 < g := lt_of_le_of_lt hb0 (lt_trans hbr hrg)
  have hdpos : 0 < g / 255 - b / 255 := by linarith
  have hmaxi : max (g / 255) (b / 255) = g / 255 := max_eq_left (by linarith)
  have hmaxo : max (r / 255) (g / 255) = g / 255 := max_eq_right (by linarith)
  have hmini : min (g / 255) (b / 255) = b / 255 := min_eq_right (by linarith)
  have hmino : min (r / 255) (b / 255) = b / 255 := min_eq_right (by linarith)
  have htneg : (b / 255 - r / 255) / (g / 255 - b / 255) < 0 :=
    div_neg_of_neg_of_pos (by linarith) hdpos
  have htgt : -1 < (b / 255 - r / 255) / (g / 255 - b / 255) :=
    (lt_div_iff₀ hdpos).mpr (by linarith)
  have heval : rgbToHsv ⟨r, g, b, a⟩ =
      ⟨((b / 255 - r / 255) / (g / 255 - b / 255) + 2) * 60,
       (g / 255 - b / 255) / (g / 255), g / 255, a⟩ := by
    simp only [rgbToHsv, hmaxi, hmaxo, hmini, hmino]
    rw [if_pos (ne_of_gt hdpos),
      if_neg (show ¬(g / 255 = r / 255) by intro hc; linarith), if_pos trivial,
      if_neg (not_lt.mpr (by nlinarith)),
      if_neg (ne_of_gt (show (0:ℚ) < g / 255 by linarith))]
  have hbound1 : 60 ≤ ((b / 255 - r / 255) / (g / 255 - b / 255) + 2) * 60 := by nlinarith
  have hbound2 : ((b / 255 - r / 255) / (g / 255 - b / 255) + 2) * 60 < 120 := by nlinarith
  rw [heval, hsvToRgb_sector2 _ _ _ _ hbound1 hbound2]
  have hgne : g ≠ 0 := ne_of_gt hg0
  have hgbne : g - b ≠ 0 := sub_ne_zero.mpr (ne_of_gt (lt_trans hbr hrg))
  simp only [RgbColor.mk.injEq]
  refine ⟨?_, ?_, ?_, trivial⟩ <;> (congr 1; field_simp; try ring)

theorem rt_gmax_s3 (r g b a : ℚ) (hr0 : 0 ≤ r) (hrb : r ≤ b) (hbg : b < g) :
    hsvToRgb (rgbToHsv ⟨r, g, b, a⟩) = ⟨jround r, jround g, jround b, a⟩ := by
  have hrg : r < g := lt_of_le_of_lt hrb hbg
  have hg0 : 0 < g := lt_of_le_of_lt hr0 hrg
  have hdpos : 0 < g / 255 - r / 255 := by linarith
  have hmaxi : max (g / 255) (b / 255) = g / 255 := max_eq_left (by linarith)
  have hmaxo : max (r / 255) (g / 255) = g / 255 := max_eq_right (by linarith)
  have hmini : min (g / 255) (b / 255) = b / 255 := min_eq_right (by linarith)
  have hmino : min (r / 255) (b / 255) = r / 255 := min_eq_left (by linarith)
  have ht0 : 0 ≤ (b / 255 - r / 255) / (g / 255 - r / 255) :=
    div_nonneg (by linarith) hdpos.le
  have ht1 : (b / 255 - r / 255) / (g / 255 - r / 255) < 1 :=
    (div_lt_one hdpos).mpr (by linarith)
  have heval : rgbToHsv ⟨r, g, b, a⟩ =
      ⟨((b / 255 - r / 255) / (g / 255 - r / 255) + 2) * 60,
       (g / 255 - r / 255) / (g / 255), g / 255, a⟩ := by
    simp only [rgbToHsv, hmaxi, hmaxo, hmini, hmino]
    rw [if_pos (ne_of_gt hdpos),
      if_neg (show ¬(g / 255 = r / 255) by intro hc; linarith), if_pos trivial,
      if_neg (not_lt.mpr (by nlinarith)),
      if_neg (ne_of_gt (show (0:ℚ) < g / 255 by linarith))]
  have hbound1 : 120 ≤ ((b / 255 - r / 255) / (g / 255 - r / 255) + 2) * 60 := by nlinarith
  have hbound2 : ((b / 255 - r / 255) / (g / 255 - r / 255) + 2) * 60 < 180 := by nlinarith
  rw [heval, hsvToRgb_sector3 _ _ _ _ hbound1 hbound2]
  have hgne : g ≠ 0 := ne_of_gt hg0
  have hgrne : g - r ≠ 0 := sub_ne_zero.mpr (ne_of_gt hrg)
  simp only [RgbColor.mk.injEq]
  refine ⟨?_, ?_, ?_, trivial⟩ <;> (congr 1; field_simp; try ring)

theorem rt_gmax_s4 (r g a : ℚ) (hr0 : 0 ≤ r) (hrg : r < g) :
    hsvToRgb (rgbToHsv ⟨r, g, g, a⟩) = ⟨jround r, jround g, jround g, a⟩ := by
  have hg0 : 0 < g := lt_of_le_of_lt hr0 hrg
  have hdpos : 0 < g / 255 - r / 255 := by linarith
  have hmino : min (r / 255) (g / 255) = r / 255 := min_eq_left (by linarith)
  have hmaxo : max (r / 255) (g / 255) = g / 255 := max_eq_right (by linarith)
  have hdivself : (g / 255 - r / 255) / (g / 255 - r / 255) = 1 := div_self (ne_of_gt hdpos)
  have heval : rgbToHsv ⟨r, g, g, a⟩ =
      ⟨180, (g / 255 - r / 255) / (g / 255), g / 255, a⟩ := by
    simp only [rgbToHsv, max_self, min_self, hmino, hmaxo]
    rw [if_pos (ne_of_gt hdpos),
      if_neg (show ¬(g / 255 = r / 255) by intro hc; linarith), if_pos trivial, hdivself,
      if_neg (by norm_num : ¬(((1:ℚ) + 2) * 60 < 0)),
      if_neg (ne_of_gt (show (0:ℚ) < g / 255 by linarith))]
    norm_num
  rw [heval, hsvToRgb_sector4 180 _ _ _ le_rfl (by norm_num)]
  have hgne : g ≠ 0 := ne_of_gt hg0
  simp only [RgbColor.mk.injEq]
  refine ⟨?_, ?_, ?_, trivial⟩ <;> (congr 1; field_simp; try ring)

theorem rt_bmax_s4 (r g b a : ℚ) (hr0 : 0 ≤ r) (hrg : r < g) (hgb : g < b) :
    hsvToRgb (rgbToHsv ⟨r, g, b, a⟩) = ⟨jround r, jround g, jround b, a⟩ := by
  have hrb : r < b := lt_trans hrg hgb
  have hb0 : 0 < b := lt_of_le_of_lt hr0 hrb
  have hdpos : 0 < b / 255 - r / 255 := by linarith
  have hmaxi : max (g / 255) (b / 255) = b / 255 := max_eq_right (by linarith)
  have hmaxo : max (r / 255) (b / 255) = b / 255 := max_eq_right (by linarith)
  have hmini : min (g / 255) (b / 255) = g / 255 := min_eq_left (by linarith)
  have hmino : min (r / 255) (g / 255) = r / 255 := min_eq_left (by linarith)
  have htneg : (r / 255 - g / 255) / (b / 255 - r / 255) < 0 :=
    div_neg_of_neg_of_pos (by linarith) hdpos
  have htgt : -1 < (r / 255 - g / 255) / (b / 255 - r / 255) :=
    (lt_div_iff₀ hdpos).mpr (by linarith)
  have heval : rgbToHsv ⟨r, g, b, a⟩ =
      ⟨((r / 255 - g / 255) / (b / 255 - r / 255) + 4) * 60,
       (b / 255 - r / 255) / (b / 255), b / 255, a⟩ := by
    simp only [rgbToHsv, hmaxi, hmaxo, hmini, hmino]
    rw [if_pos (ne_of_gt hdpos),
      if_neg (show ¬(b / 255 = r / 255) by intro hc; linarith),
      if_neg (show ¬(b / 255 = g / 255) by intro hc; linarith),
      if_neg (not_lt.mpr (by nlinarith)),
      if_neg (ne_of_gt (show (0:ℚ) < b / 255 by linarith))]
  have hbound1 : 180 ≤ ((r / 255 - g / 255) / (b / 255 - r / 255) + 4) * 60 := by nlinarith
  have hbound2 : ((r / 255 - g / 255) / (b / 255 - r / 255) + 4) * 60 < 240 := by nlinarith
  rw [heval, hsvToRgb_sector4 _ _ _ _ hbound1 hbound2]
  have hbne : b ≠ 0 := ne_of_gt hb0
  have hbrne : b - r ≠ 0 := sub_ne_zero.mpr (ne_of_gt hrb)
  simp only [RgbColor.mk.injEq]
  refine ⟨?_, ?_, ?_, trivial⟩ <;> (congr 1; field_simp; try ring)

theorem rt_bmax_s5 (r g b a : ℚ) (hg0 : 0 ≤ g) (hgr : g ≤ r) (hrb : r < b) :
    hsvToRgb (rgbToHsv ⟨r, g, b, a⟩) = ⟨jround r, jround g, jround b, a⟩ := by
  have hgb : g < b := lt_of_le_of_lt hgr hrb
  have hb0 : 0 < b := lt_of_le_of_lt hg0 hgb
  have hdpos : 0 < b / 255 - g / 255 := by linarith
  have hmaxi : max (g / 255) (b / 255) = b / 255 := max_eq_right (by linarith)
  have hmaxo : max (r / 255) (b / 255) = b / 255 := max_eq_right (by linarith)
  have hmini : min (g / 255) (b / 255) = g / 255 := min_eq_left (by linarith)
  have hmino : min (r / 255) (g / 255) = g / 255 := min_eq_right (by linarith)
  have ht0 : 0 ≤ (r / 255 - g / 255) / (b / 255 - g / 255) :=
    div_nonneg (by linarith) hdpos.le
  have ht1 : (r / 255 - g / 255) / (b / 255 - g / 255) < 1 :=
    (div_lt_one hdpos).mpr (by linarith)
  have heval : rgbToHsv ⟨r, g, b, a⟩ =
      ⟨((r / 255 - g / 255) / (b / 255 - g / 255) + 4) * 60,
       (b / 255 - g / 255) / (b / 255), b / 255, a⟩ := by
    simp only [rgbToHsv, hmaxi, hmaxo, hmini, hmino]
    rw [if_pos (ne_of_gt hdpos),
      if_neg (show ¬(b / 255 = r / 255) by intro hc; linarith),
      if_neg (show ¬(b / 255 = g / 255) by intro hc; linarith),
      if_neg (not_lt.mpr (by nlinarith)),
      if_neg (ne_of_gt (show (0:ℚ) < b / 255 by linarith))]
  have hbound1 : 240 ≤ ((r / 255 - g / 255) / (b / 255 - g / 255) + 4) * 60 := by nlinarith
  have hbound2 : ((r / 255 - g / 255) / (b / 255 - g / 255) + 4) * 60 < 300 := by nlinarith
  rw [heval, hsvToRgb_sector5 _ _ _ _ hbound1 hbound2]
  have hbne : b ≠ 0 := ne_of_gt hb0
  have hbgne : b - g ≠ 0 := sub_ne_zero.mpr (ne_of_gt hgb)
  simp only [RgbColor.mk.injEq]
  refine ⟨?_, ?_, ?_, trivial⟩ <;> (congr 1; field_simp; try ring)

theorem hsv_roundtrip_core (r g b a : ℚ) (hr : 0 ≤ r) (hg : 0 ≤ g) (hb : 0 ≤ b) :
    hsvToRgb (rgbToHsv ⟨r, g, b, a⟩) = ⟨jround r, jround g, jround b, a⟩ := by
  rcases le_or_lt g r with hgr | hgr
  · rcases le_or_lt b r with hbr | hbr
    · rcases le_or_lt b g with hbg | hbg
      · rcases eq_or_lt_of_le hgr with hge | hglt
        · rcases eq_or_lt_of_le hbr with hbe | hblt
          · rw [hge, hbe]
            exact rt_gray r a
          · rw [hge]
            exact rt_rmax_s2 r b a hb hblt
        · exact rt_rmax_s1 r g b a hb hbg hglt
      · rcases eq_or_lt_of_le hbr with hbe | hblt
        · rw [hbe]
          rw [hbe] at hbg
          exact rt_rmax_s6 r g r a hg hbg le_rfl
        · exact rt_rmax_s6 r g b a hg hbg hblt.le
    · exact rt_bmax_s5 r g b a hg hgr hbr
  · rcases le_or_lt b g with hbg | hbg
    · rcases lt_or_le b r with hblt | hble
      · exact rt_gmax_s2 r g b a hb hblt hgr
      · rcases eq_or_lt_of_le hbg with hbe | hblt2
        · rw [hbe]
          exact rt_gmax_s4 r g a hr hgr
        · exact rt_gmax_s3 r g b a hr hble hblt2
    · exact rt_bmax_s4 r g b a hr hgr hbg

end RoundTrip

section EvalHelpers

set_option maxRecDepth 4096 in
theorem hexByte_pad : ∀ n : ℕ, n ≤ 255 → padStart2 (natToHex n) = specHexByte n := by
  decide

theorem jsToString16_natCast (n : ℕ) : jsToString16 (n : ℚ) = natToHex n := by
  simp [jsToString16]

theorem jsToString16_intCast (k : ℤ) : jsToString16 (k : ℚ) = natToHex k.toNat := by
  simp [jsToString16]

theorem jround_den_one (q : ℚ) (h : q.den = 1) : jround q = q := by
  have hq : ((q.num : ℤ) : ℚ) = q := Rat.coe_int_num_of_den_eq_one h
  rw [← hq, jround_intCast]

theorem hsv_red_eval : rgbToHsv ⟨255, 0, 0, 1⟩ = ⟨0, 1, 1, 1⟩ := by
  simp only [rgbToHsv]
  norm_num [max_def, min_def, jsMod, jtrunc]

theorem hsv_green_eval : rgbToHsv ⟨0, 255, 0, 1⟩ = ⟨120, 1, 1, 1⟩ := by
  simp only [rgbToHsv]
  norm_num [max_def, min_def, jsMod, jtrunc]

theorem hsv_chartreuse_eval : rgbToHsv ⟨128, 255, 0, 1⟩ = ⟨1528/17, 1, 1, 1⟩ := by
  simp only [rgbToHsv]
  norm_num [max_def, min_def, jsMod, jtrunc]

theorem rgb_of_hsv0 : hsvToRgb ⟨0, 1, 1, 1⟩ = ⟨255, 0, 0, 1⟩ := by
  rw [hsvToRgb_sector1 0 1 1 1 le_rfl (by norm_num)]
  norm_num [jround]

theorem rgb_of_hsv90 : hsvToRgb ⟨90, 1, 1, 1⟩ = ⟨128, 255, 0, 1⟩ := by
  rw [hsvToRgb_sector2 90 1 1 1 (by norm_num) (by norm_num)]
  norm_num [jround]

theorem rgb_of_hsv120 : hsvToRgb ⟨120, 1, 1, 1⟩ = ⟨0, 255, 0, 1⟩ := by
  rw [hsvToRgb_sector3 120 1 1 1 le_rfl (by norm_num)]
  norm_num [jround]

theorem hex_red_eval : rgbToHex ⟨255, 0, 0, 1⟩ = "#ff0000" := by
  have h255 : jsToString16 (255 : ℚ) = natToHex 255 := by simp [jsToString16]
  have h0 : jsToString16 (0 : ℚ) = natToHex 0 := by simp [jsToString16]
  simp only [rgbToHex]
  rw [if_neg (lt_irrefl (1 : ℚ)), h255, h0]
  decide

theorem hex_green_eval : rgbToHex ⟨0, 255, 0, 1⟩ = "#00ff00" := by
  have h255 : jsToString16 (255 : ℚ) = natToHex 255 := by simp [jsToString16]
  have h0 : jsToString16 (0 : ℚ) = natToHex 0 := by simp [jsToString16]
  simp only [rgbToHex]
  rw [if_neg (lt_irrefl (1 : ℚ)), h255, h0]
  decide

theorem parseColor_hsv_hsv (E : Externals) (c : HsvColor) :
    (parseColor E (.hsv c)).hsv = rgbToHsv (hsvToRgb c) := rfl

theorem parseColor_hsv_hex (E : Externals) (c : HsvColor) :
    (parseColor E (.hsv c)).hex = rgbToHex (hsvToRgb c) := rfl

end EvalHelpers

section Claims

/-- C1 counterexample: the claim says rgbToHex returns exactly the string
hash-00000000 whenever alpha is 0, but the imported rgbToHex keeps the real
channel bytes and appends the 00 alpha byte: opaque-channel red with alpha
0 renders as hash-ff000000, not hash-00000000. -/
theorem rgbToHex_alpha_zero_cex : rgbToHex ⟨255, 0, 0, 0⟩ ≠ "#00000000" := by
  have h255 : jsToString16 (255 : ℚ) = natToHex 255 := by simp [jsToString16]
  have h0 : jsToString16 (0 : ℚ) = natToHex 0 := by simp [jsToString16]
  have hjr : jround ((0 : ℚ) * 255) = 0 := by norm_num [jround]
  have heval : rgbToHex ⟨255, 0, 0, 0⟩ = "#ff000000" := by
    simp only [rgbToHex]
    rw [if_pos (by norm_num : (0 : ℚ) < 1), hjr, h255, h0]
    decide
  rw [heval]
  decide

/-- C1 (amended): for integer channels in 0..255 and 0 ≤ a, rgbToHex
returns the hash sign, the three zero-padded 2-hex-digit channel bytes,
and, exactly when a < 1 (including a = 0), the 2-hex-digit alpha byte
round(a*255); when a = 1 the alpha byte is omitted.  The a = 0 case thus
yields the channel bytes followed by 00, which is the string hash-00000000
only when r = g = b = 0. -/
theorem rgbToHex_alpha_byte (r g b : ℕ) (hr : r ≤ 255) (hg : g ≤ 255) (hb : b ≤ 255)
    (a : ℚ) (ha : 0 ≤ a) :
    (a < 1 → rgbToHex ⟨(r : ℚ), (g : ℚ), (b : ℚ), a⟩ =
      "#" ++ specHexByte r ++ specHexByte g ++ specHexByte b ++
        specHexByte (⌊a * 255 + 1/2⌋).toNat) ∧
    (a = 1 → rgbToHex ⟨(r : ℚ), (g : ℚ), (b : ℚ), a⟩ =
      "#" ++ specHexByte r ++ specHexByte g ++ specHexByte b) := by
  constructor
  · intro hlt
    have hk0 : (0 : ℤ) ≤ ⌊a * 255 + 1/2⌋ := Int.floor_nonneg.mpr (by nlinarith)
    have hk1 : ⌊a * 255 + 1/2⌋ < 256 := Int.floor_lt.mpr (by push_cast; nlinarith)
    simp only [rgbToHex]
    rw [if_pos hlt]
    unfold jround
    rw [jsToString16_natCast, jsToString16_natCast, jsToString16_natCast,
      jsToString16_intCast, hexByte_pad r hr, hexByte_pad g hg, hexByte_pad b hb,
      hexByte_pad _ (by omega)]
  · intro h1
    subst h1
    simp only [rgbToHex]
    rw [if_neg (lt_irrefl (1 : ℚ)),
      jsToString16_natCast, jsToString16_natCast, jsToString16_natCast,
      hexByte_pad r hr, hexByte_pad g hg, hexByte_pad b hb, String.append_empty]

/-- C1 witness: the amended statement evaluated at (255, 0, 0) with
a = 1/2. -/
theorem rgbToHex_alpha_byte_witness :
    rgbToHex ⟨((255 : ℕ) : ℚ), ((0 : ℕ) : ℚ), ((0 : ℕ) : ℚ), 1/2⟩ =
      "#" ++ specHexByte 255 ++ specHexByte 0 ++ specHexByte 0 ++
        specHexByte (⌊(1/2 : ℚ) * 255 + 1/2⌋).toNat :=
  (rgbToHex_alpha_byte 255 0 0 (by norm_num) (by norm_num) (by norm_num) (1/2)
    (by norm_num)).1 (by norm_num)

/-- C2: for integer channels in 0..255 and alpha in 0..1, converting
RGB to HSV and back reproduces all three integer channels exactly and
passes alpha through unchanged. -/
theorem hsvToRgb_rgbToHsv_roundtrip (r g b : ℕ) (hr : r ≤ 255) (hg : g ≤ 255)
    (hb : b ≤ 255) (a : ℚ) (ha0 : 0 ≤ a) (ha1 : a ≤ 1) :
    hsvToRgb (rgbToHsv ⟨(r : ℚ), (g : ℚ), (b : ℚ), a⟩) = ⟨(r : ℚ), (g : ℚ), (b : ℚ), a⟩ := by
  rw [hsv_roundtrip_core _ _ _ a (Nat.cast_nonneg r) (Nat.cast_nonneg g) (Nat.cast_nonneg b)]
  simp [jround_natCast]

/-- C2 witness: the round trip evaluated at (100, 150, 200) with a = 1. -/
theorem hsvToRgb_rgbToHsv_roundtrip_witness :
    hsvToRgb (rgbToHsv ⟨((100 : ℕ) : ℚ), ((150 : ℕ) : ℚ), ((200 : ℕ) : ℚ), 1⟩) =
      ⟨((100 : ℕ) : ℚ), ((150 : ℕ) : ℚ), ((200 : ℕ) : ℚ), 1⟩ :=
  hsvToRgb_rgbToHsv_roundtrip 100 150 200 (by norm_num) (by norm_num) (by norm_num) 1
    (by norm_num) (by norm_num)

/-- C3: from a picker state with hsv (h 200, s 0.5, v 0.5, any alpha),
setHsv with v 0 followed by setHsv with v 0.5 and no external color write
in between leaves h = 200 and s = 0.5. -/
theorem setHsv_value_dip_preserves_hue_sat (E : Externals) (st : PickerState) (a : ℚ)
    (hst : st.hsv = ⟨200, 1/2, 1/2, a⟩) :
    ((updateHsv E ⟨none, none, some (1/2), none⟩
        (updateHsv E ⟨none, none, some 0, none⟩ st)).hsv.h = 200 ∧
      (updateHsv E ⟨none, none, some (1/2), none⟩
        (updateHsv E ⟨none, none, some 0, none⟩ st)).hsv.s = 1/2) := by
  constructor <;> simp [updateHsv, mergeHsv, hst]

/-- C3 witness: the dip-and-restore sequence on the concrete state st0. -/
theorem setHsv_value_dip_preserves_hue_sat_witness :
    ((updateHsv extStub ⟨none, none, some (1/2), none⟩
        (updateHsv extStub ⟨none, none, some 0, none⟩ st0)).hsv.h = 200 ∧
      (updateHsv extStub ⟨none, none, some (1/2), none⟩
        (updateHsv extStub ⟨none, none, some 0, none⟩ st0)).hsv.s = 1/2) :=
  setHsv_value_dip_preserves_hue_sat extStub st0 1 rfl

/-- C4: on an external color replacement, a non-degenerate incoming hsv
(v > 0 and s > 0) is adopted verbatim; otherwise the previously tracked
h and s are kept and only v and a are taken from the incoming color. -/
theorem external_color_hue_preservation (st : PickerState) (nv : ColorValue) :
    ((0 < nv.hsv.v ∧ 0 < nv.hsv.s) → (externalSetColor st nv).hsv = nv.hsv) ∧
    (¬(0 < nv.hsv.v ∧ 0 < nv.hsv.s) →
      (externalSetColor st nv).hsv = ⟨st.hsv.h, st.hsv.s, nv.hsv.v, nv.hsv.a⟩) ∧
    (externalSetColor st nv).color = nv := by
  refine ⟨fun hc => ?_, fun hc => ?_, rfl⟩ <;> simp [externalSetColor, hc]

/-- C4 witness: replacing the color of st0 by the degenerate cv0
(v = 0) keeps h = 200 and s = 0.5 while taking v and a from cv0. -/
theorem external_color_hue_preservation_witness :
    (externalSetColor st0 cv0).hsv = ⟨200, 1/2, 0, 1⟩ :=
  (external_color_hue_preservation st0 cv0).2.1 (by norm_num [cv0])

/-- C5 counterexample: after setHsv with h of 90 the previewColor's hsv
field is not (h 90, s 1, v 1, a 1): parseColor recomputes hsv from the
rounded RGB pivot, which yields h = 1528/17 (about 89.88). -/
theorem setHsv_previewColor_cex :
    (updateHsv extStub ⟨some 90, none, none, none⟩ st0).previewColor.hsv ≠
      ⟨90, 1, 1, 1⟩ := by
  have heq : (updateHsv extStub ⟨some 90, none, none, none⟩ st0).previewColor.hsv
      = ⟨1528/17, 1, 1, 1⟩ := by
    show (parseColor extStub (.hsv ⟨(90 : ℚ), 1, 1, 1⟩)).hsv = _
    rw [parseColor_hsv_hsv, rgb_of_hsv90, hsv_chartreuse_eval]
  rw [heq]
  intro hc
  have hh := congrArg HsvColor.h hc
  norm_num at hh

/-- C5 (amended): when setHsv receives a hue, the tracked hue becomes
round(h) clamped into [0,360], the new color is parseColor of the merged
hsv, and the new previewColor is parseColor of (h_raw, 1, 1, 1) where
h_raw is the unrounded hue argument; at h = 90 the previewColor's hsv
field is (1528/17, 1, 1, 1) - the hue recomputed through the rounded RGB
pivot - rather than (90, 1, 1, 1). -/
theorem setHsv_hue_effects (E : Externals) (st : PickerState) (hArg : ℚ)
    (us uv ua : Option ℚ) :
    ((updateHsv E ⟨some hArg, us, uv, ua⟩ st).hsv.h = max 0 (min 360 (jround hArg))) ∧
    ((updateHsv E ⟨some hArg, us, uv, ua⟩ st).color =
      parseColor E (.hsv (updateHsv E ⟨some hArg, us, uv, ua⟩ st).hsv)) ∧
    ((updateHsv E ⟨some hArg, us, uv, ua⟩ st).previewColor =
      parseColor E (.hsv ⟨hArg, 1, 1, 1⟩)) ∧
    (hArg = 90 →
      (updateHsv E ⟨some hArg, us, uv, ua⟩ st).previewColor.hsv = ⟨1528/17, 1, 1, 1⟩) := by
  refine ⟨rfl, rfl, rfl, ?_⟩
  intro h90
  subst h90
  show (parseColor E (.hsv ⟨(90 : ℚ), 1, 1, 1⟩)).hsv = ⟨1528/17, 1, 1, 1⟩
  rw [parseColor_hsv_hsv, rgb_of_hsv90, hsv_chartreuse_eval]

/-- C5 witness: the hue-supplied branch evaluated at h = 90 on st0. -/
theorem setHsv_hue_effects_witness :
    (updateHsv extStub ⟨some 90, none, none, none⟩ st0).previewColor.hsv =
      ⟨1528/17, 1, 1, 1⟩ :=
  (setHsv_hue_effects extStub st0 90 none none none).2.2.2 rfl

/-- C6 counterexample: the previewColor invariant is not preserved by
every operation: setColor replaces the tracked hue (here red to green)
without touching previewColor, so afterwards previewColor differs from
parseColor of the fully-saturated tracked hue. -/
theorem preview_invariant_cex :
    ¬ PreviewInvariant extStub (setColor (initPicker extStub cvRed) cvGreen) := by
  intro hinv
  have hredhsv : cvRed.hsv = ⟨0, 1, 1, 1⟩ := by
    show rgbToHsv ⟨255, 0, 0, 1⟩ = _
    exact hsv_red_eval
  have hgreenhsv : cvGreen.hsv = ⟨120, 1, 1, 1⟩ := by
    show rgbToHsv ⟨0, 255, 0, 1⟩ = _
    exact hsv_green_eval
  have hstate : (setColor (initPicker extStub cvRed) cvGreen).hsv = ⟨120, 1, 1, 1⟩ := by
    show (externalSetColor _ cvGreen).hsv = _
    simp only [externalSetColor]
    rw [if_pos (by rw [hgreenhsv]; norm_num)]
    exact hgreenhsv
  have hh : (setColor (initPicker extStub cvRed) cvGreen).hsv.h = 120 := by
    rw [hstate]
  unfold PreviewInvariant at hinv
  rw [hh] at hinv
  have hprev : (setColor (initPicker extStub cvRed) cvGreen).previewColor
      = parseColor extStub (.hsv ⟨0, 1, 1, 1⟩) := by
    show parseColor extStub (.hsv { cvRed.hsv with s := 1, v := 1 }) = _
    rw [hredhsv]
  rw [hprev] at hinv
  have hhex := congrArg ColorValue.hex hinv
  rw [parseColor_hsv_hex, parseColor_hsv_hex, rgb_of_hsv0, rgb_of_hsv120,
    hex_red_eval, hex_green_eval] at hhex
  exact absurd hhex (by decide)

/-- C6 (amended): the previewColor relation holds at initialization when
the incoming color's hsv alpha is 1, and it is preserved by setHsv calls
whose hue argument, when present, is an integer already in [0,360]; it is
not preserved by setColor or external color replacement (which change the
tracked hue without touching previewColor), by setPreviewColor, or by
setHsv with a fractional or out-of-range hue (previewColor uses the raw
argument while the tracked hue is rounded and clamped), and it can fail at
initialization when alpha is below 1. -/
theorem preview_invariant_init_and_setHsv (E : Externals) :
    (∀ c : ColorValue, c.hsv.a = 1 → PreviewInvariant E (initPicker E c)) ∧
    (∀ st u, PreviewInvariant E st → GoodHue u → PreviewInvariant E (updateHsv E u st)) := by
  constructor
  · intro c hc
    show parseColor E (.hsv { c.hsv with s := 1, v := 1 }) =
      parseColor E (.hsv ⟨c.hsv.h, 1, 1, 1⟩)
    rw [show ({ c.hsv with s := 1, v := 1 } : HsvColor) = ⟨c.hsv.h, 1, 1, c.hsv.a⟩ from rfl,
      hc]
  · intro st u hInv hGood
    unfold PreviewInvariant
    cases hu : u.h with
    | none =>
      have hpres : (updateHsv E u st).previewColor = st.previewColor := by
        simp [updateHsv, hu]
      have hh : (updateHsv E u st).hsv.h = st.hsv.h := by
        simp [updateHsv, mergeHsv, hu]
      rw [hpres, hh]
      exact hInv
    | some q =>
      obtain ⟨hden, h0, h1⟩ : q.den = 1 ∧ 0 ≤ q ∧ q ≤ 360 := by
        simpa [GoodHue, hu] using hGood
      have hclamp : max 0 (min 360 (jround q)) = q := by
        rw [jround_den_one q hden, min_eq_right h1, max_eq_right h0]
      have hh : (updateHsv E u st).hsv.h = q := by
        simp [updateHsv, hu, hclamp]
      have hprev : (updateHsv E u st).previewColor = parseColor E (.hsv ⟨q, 1, 1, 1⟩) := by
        simp [updateHsv, hu]
      rw [hprev, hh]

/-- C6 witness: the relation holds for the initial state built from cv0
(alpha 1) and survives a setHsv call with the integral hue 90. -/
theorem preview_invariant_init_and_setHsv_witness :
    PreviewInvariant extStub (initPicker extStub cv0) ∧
    PreviewInvariant extStub
      (updateHsv extStub ⟨some 90, none, none, none⟩ (initPicker extStub cv0)) := by
  have h := preview_invariant_init_and_setHsv extStub
  have hinit := h.1 cv0 rfl
  exact ⟨hinit, h.2 _ _ hinit (by norm_num [GoodHue])⟩

/-- C8: whenever parseToRgb yields no result (for example on the
unrecognized object shape), parseColor does not fail: it returns the
ColorValue rebuilt from opaque black (0, 0, 0, 1). -/
theorem parseColor_fallback_black (E : Externals) (c : ColorInput)
    (h : parseToRgb E c = none) :
    parseColor E c = mkColorValue E ⟨0, 0, 0, 1⟩ := by
  cases c with
  | str s =>
    show mkColorValue E ((parseToRgb E (.str s)).getD ⟨0, 0, 0, 1⟩) = _
    rw [h]
    rfl
  | full cv => simp [parseToRgb] at h
  | rgb c => simp [parseToRgb] at h
  | hsv c => simp [parseToRgb] at h
  | oklch c => simp [parseToRgb] at h
  | unrecognized =>
    show mkColorValue E ((parseToRgb E .unrecognized).getD ⟨0, 0, 0, 1⟩) = _
    rw [h]
    rfl

/-- C8 witness: the fallback evaluated at the unrecognized object shape
(the test's object with a single x field). -/
theorem parseColor_fallback_black_witness :
    parseColor extStub .unrecognized = mkColorValue extStub ⟨0, 0, 0, 1⟩ :=
  parseColor_fallback_black extStub .unrecognized rfl

/-- C9: a setHsv call that does not include a hue leaves previewColor
unchanged; previewColor changes only on calls that include h. -/
theorem setHsv_no_hue_preserves_preview (E : Externals) (st : PickerState)
    (us uv ua : Option ℚ) :
    (updateHsv E ⟨none, us, uv, ua⟩ st).previewColor = st.previewColor := rfl

/-- C10: an input carrying both a hex and a rgb field is returned by
parseColor unchanged, without recomputation or validation, and parseColor
is therefore idempotent on every input. -/
theorem parseColor_passthrough_idempotent (E : Externals) :
    (∀ cv : ColorValue, parseColor E (.full cv) = cv) ∧
    (∀ c : ColorInput, parseColor E (.full (parseColor E c)) = parseColor E c) :=
  ⟨fun _ => rfl, fun _ => rfl⟩

end Claims

end MeshMagic
